import Mathlib

/-!
Shallow embedding of `src/todolist.py`: the `Task` record, the `ToDoList`
store, and the JSON persistence round-trip.  The filesystem is modelled as a
map from filenames to file data, and the wall clock as an explicit `now`
string parameter (Python's `datetime.now().isoformat()`).
-/

namespace Todo

/-- Python `max(1, min(priority, 3))` from `Task.__init__` / `ToDoList.edit_task`. -/
def clamp (p : Int) : Int := max 1 (min p 3)

/-- A single to-do item (`class Task`). -/
structure Task where
  title : String
  note : String
  priority : Int
  assignee : String
  done : Bool
  created_at : String
deriving DecidableEq, Repr

/-- Constructor `Task.__init__(title, note="", priority=2, assignee="Unassigned")`:
`done` starts false, `created_at` is the current time (passed as `now`),
`priority` is clamped into [1,3]. -/
def Task.make (title : String) (note : String) (priority : Int)
    (assignee : String) (now : String) : Task :=
  { title := title
    note := note
    priority := clamp priority
    assignee := assignee
    done := false
    created_at := now }

/-- Python `Task.mark_done`. -/
def Task.mark_done (t : Task) : Task := { t with done := true }

/-- Python `Task.mark_undone`. -/
def Task.mark_undone (t : Task) : Task := { t with done := false }

/-- The JSON object produced by `Task.to_dict` and consumed by
`Task.from_dict`: each key may be absent (`Option`). -/
structure TaskDict where
  title : Option String
  note : Option String
  priority : Option Int
  assignee : Option String
  done : Option Bool
  created_at : Option String
deriving DecidableEq, Repr

/-- Serialization `Task.to_dict`: every key present, values copied from the fields. -/
def Task.to_dict (t : Task) : TaskDict :=
  { title := some t.title
    note := some t.note
    priority := some t.priority
    assignee := some t.assignee
    done := some t.done
    created_at := some t.created_at }

/-- Deserialization `Task.from_dict`: `data["title"]` raises `KeyError` when absent
(modelled as `none`); the optional keys default via `.get`, the priority
default 2 passes through the constructor's clamp, and `done` /
`created_at` are assigned after construction. -/
def Task.from_dict (data : TaskDict) (now : String) : Option Task :=
  match data.title with
  | none => none
  | some ttl =>
      let t := Task.make ttl (data.note.getD "") (data.priority.getD 2)
        (data.assignee.getD "Unassigned") now
      some { t with
              done := data.done.getD false
              created_at := data.created_at.getD now }

/-- The priority-label dictionary lookup `{1: "High", 2: "Med", 3: "Low"}[p]`:
a missing key is a `KeyError`, modelled as `none`. -/
def priorityLabel (p : Int) : Option String :=
  if p = 1 then some "High"
  else if p = 2 then some "Med"
  else if p = 3 then some "Low"
  else none

/-- Display `Task.__str__`: `[status] title (Priority: pr, Assignee: assignee)`;
`none` when the priority-label lookup raises. -/
def Task.display (t : Task) : Option String :=
  (priorityLabel t.priority).map fun pr =>
    "[" ++ (if t.done then "✓" else " ") ++ "] " ++ t.title ++
      " (Priority: " ++ pr ++ ", Assignee: " ++ t.assignee ++ ")"

/-- Store `class ToDoList`: an ordered sequence of tasks. -/
structure ToDoList where
  tasks : List Task
deriving DecidableEq, Repr

/-- Python `ToDoList.__init__`: empty list. -/
def ToDoList.empty : ToDoList := ⟨[]⟩

/-- Python `ToDoList.add_task`: append at the end. -/
def ToDoList.add_task (st : ToDoList) (task : Task) : ToDoList :=
  ⟨st.tasks ++ [task]⟩

/-- Python `ToDoList.remove_task`: delete by index when `0 <= index < len`,
returning the success flag together with the updated store. -/
def ToDoList.remove_task (st : ToDoList) (index : Int) : Bool × ToDoList :=
  if 0 ≤ index ∧ index < st.tasks.length then
    (true, ⟨st.tasks.eraseIdx index.toNat⟩)
  else
    (false, st)

/-- Python `ToDoList.get_tasks`: the full list, or only the incomplete tasks. -/
def ToDoList.get_tasks (st : ToDoList) (show_completed : Bool) : List Task :=
  if show_completed then st.tasks
  else st.tasks.filter fun t => !t.done

/-- The body of `ToDoList.edit_task` on the selected task: each parameter
that is not `None` overwrites the field, priority re-clamped. -/
def applyEdit (t : Task) (title note : Option String) (priority : Option Int)
    (assignee : Option String) : Task :=
  { t with
      title := title.getD t.title
      note := note.getD t.note
      priority := match priority with
        | some p => clamp p
        | none => t.priority
      assignee := assignee.getD t.assignee }

instance : Inhabited Task := ⟨Task.make "" "" 2 "" ""⟩

/-- Python `ToDoList.edit_task`: edit fields of the task at `index`; success flag
mirrors `remove_task`. -/
def ToDoList.edit_task (st : ToDoList) (index : Int) (title note : Option String)
    (priority : Option Int) (assignee : Option String) : Bool × ToDoList :=
  if 0 ≤ index ∧ index < st.tasks.length then
    (true, ⟨st.tasks.set index.toNat
      (applyEdit (st.tasks.getD index.toNat default) title note priority assignee)⟩)
  else
    (false, st)

/-- The content found at a filename: either a well-formed JSON array of
records, or bytes that `json.load` rejects. -/
inductive FileData where
  | records (rs : List TaskDict)
  | corrupt
deriving DecidableEq, Repr

/-- The filesystem: a partial map from filenames to contents. -/
def FS : Type := String → Option FileData

/-- Write `content` at `fname`, overwriting. -/
def FS.write (fs : FS) (fname : String) (content : FileData) : FS :=
  fun n => if n = fname then some content else fs n

/-- Python `ToDoList.save`: dump the full sequence, in order, as a list of dicts. -/
def ToDoList.save (st : ToDoList) (fs : FS) (fname : String) : FS :=
  fs.write fname (FileData.records (st.tasks.map Task.to_dict))

/-- The failures `ToDoList.load` can surface: a `json.load` parse error, or
the `KeyError` from a record missing `title`. -/
inductive LoadError where
  | parseError
  | malformedRecord
deriving DecidableEq, Repr

/-- The list comprehension `[Task.from_dict(d) for d in data]`: built left to
right, failing as a whole as soon as one record fails. -/
def loadRecords (rs : List TaskDict) (now : String) : Option (List Task) :=
  match rs with
  | [] => some []
  | d :: rest =>
      match Task.from_dict d now, loadRecords rest now with
      | some t, some ts => some (t :: ts)
      | _, _ => none

/-- Python `ToDoList.load`: a missing file is swallowed (`except FileNotFoundError`)
and resets the store to empty; a parse failure or a record missing `title`
propagates, and since `self.tasks` is assigned only after the whole list
comprehension finishes, an error leaves the store as it was. -/
def ToDoList.load (fs : FS) (fname : String) (now : String) :
    Except LoadError ToDoList :=
  match fs fname with
  | none => .ok ⟨[]⟩
  | some FileData.corrupt => .error .parseError
  | some (FileData.records rs) =>
      match loadRecords rs now with
      | none => .error .malformedRecord
      | some ts => .ok ⟨ts⟩

/-- The store held by the caller after `load` returns or raises: on success
the replacement, on a propagated exception the previous store untouched. -/
def ToDoList.afterLoad (st : ToDoList) (fs : FS) (fname : String)
    (now : String) : ToDoList :=
  match ToDoList.load fs fname now with
  | .ok st' => st'
  | .error _ => st

/-- The priority invariant: the field stays inside the closed range [1,3]. -/
def Task.priorityInv (t : Task) : Prop := 1 ≤ t.priority ∧ t.priority ≤ 3

instance (t : Task) : Decidable t.priorityInv := by
  unfold Task.priorityInv; infer_instance

/-- Tasks reachable through the public operations: construction,
status toggles, field edits, and deserialization. -/
inductive ReachableTask : Task → Prop
  | construct (title note : String) (priority : Int) (assignee now : String) :
      ReachableTask (Task.make title note priority assignee now)
  | markDone {t : Task} : ReachableTask t → ReachableTask t.mark_done
  | markUndone {t : Task} : ReachableTask t → ReachableTask t.mark_undone
  | edit {t : Task} (title note : Option String) (priority : Option Int)
      (assignee : Option String) : ReachableTask t →
      ReachableTask (applyEdit t title note priority assignee)
  | deser {d : TaskDict} {now : String} {t : Task} :
      Task.from_dict d now = some t → ReachableTask t

/-! Helper lemmas shared by the claim theorems. -/

theorem clamp_bounds (p : Int) : 1 ≤ clamp p ∧ clamp p ≤ 3 :=
  ⟨le_max_left 1 (min p 3), max_le (by norm_num) (min_le_right p 3)⟩

theorem clamp_eq_self (p : Int) (h1 : 1 ≤ p) (h3 : p ≤ 3) : clamp p = p := by
  unfold clamp
  rw [min_eq_left h3, max_eq_right h1]

theorem make_priorityInv (title note : String) (p : Int) (assignee now : String) :
    (Task.make title note p assignee now).priorityInv :=
  clamp_bounds p

theorem from_dict_to_dict (t : Task) (h : t.priorityInv) (now : String) :
    Task.from_dict t.to_dict now = some t := by
  obtain ⟨h1, h3⟩ := h
  cases t with
  | mk title note priority assignee done created_at =>
      simp only [Task.from_dict, Task.to_dict, Task.make, Option.getD_some]
      simp_all [clamp_eq_self]

theorem from_dict_priorityInv (d : TaskDict) (now : String) (t : Task)
    (h : Task.from_dict d now = some t) : t.priorityInv := by
  cases hd : d.title with
  | none => simp [Task.from_dict, hd] at h
  | some ttl =>
      simp only [Task.from_dict, hd] at h
      obtain ⟨h1, h3⟩ := clamp_bounds (d.priority.getD 2)
      cases h
      exact ⟨h1, h3⟩

theorem applyEdit_priorityInv (t : Task) (title note : Option String)
    (priority : Option Int) (assignee : Option String) (h : t.priorityInv) :
    (applyEdit t title note priority assignee).priorityInv := by
  cases priority with
  | none => exact h
  | some p => exact clamp_bounds p

theorem reachable_priorityInv (t : Task) (h : ReachableTask t) : t.priorityInv := by
  induction h with
  | construct title note priority assignee now => exact make_priorityInv _ _ _ _ _
  | markDone _ ih => exact ih
  | markUndone _ ih => exact ih
  | edit title note priority assignee _ ih =>
      exact applyEdit_priorityInv _ _ _ _ _ ih
  | deser hdt => exact from_dict_priorityInv _ _ _ hdt

theorem display_isSome_of_inv (t : Task) (h : t.priorityInv) :
    (t.display).isSome = true := by
  obtain ⟨h1, h3⟩ := h
  have hp : t.priority = 1 ∨ t.priority = 2 ∨ t.priority = 3 := by omega
  rcases hp with hp | hp | hp <;> simp [Task.display, priorityLabel, hp]

theorem loadRecords_map_to_dict (l : List Task) (h : ∀ u ∈ l, u.priorityInv)
    (now : String) : loadRecords (l.map Task.to_dict) now = some l := by
  induction l with
  | nil => rfl
  | cons a rest ih =>
      simp only [List.map_cons, loadRecords,
        from_dict_to_dict a (h a (by simp)) now,
        ih fun u hu => h u (by simp [hu])]

theorem loadRecords_none_of_missing_title (rs : List TaskDict) (now : String)
    (h : ∃ d ∈ rs, d.title = none) : loadRecords rs now = none := by
  induction rs with
  | nil => simp at h
  | cons a rest ih =>
      obtain ⟨d, hd, hnone⟩ := h
      rcases List.mem_cons.mp hd with rfl | hmem
      · simp [loadRecords, Task.from_dict, hnone]
      · unfold loadRecords
        rw [ih ⟨d, hmem, hnone⟩]
        cases Task.from_dict a now <;> rfl

/-! Claim theorems. -/

/-- C1: for every valid Task (priority inside [1,3]), deserializing its
serialization reproduces it field-for-field, `created_at` verbatim; and for
every store of valid tasks, `load` of a destination immediately after `save`
to that destination reproduces the same sequence: same length, same order,
same field values. -/
theorem c1_serialize_round_trip (t : Task) (h : t.priorityInv) (now : String)
    (st : ToDoList) (hst : ∀ u ∈ st.tasks, u.priorityInv)
    (fs : FS) (fname now2 : String) :
    Task.from_dict t.to_dict now = some t ∧
    ToDoList.load (st.save fs fname) fname now2 = .ok st := by
  refine ⟨from_dict_to_dict t h now, ?_⟩
  have hfs : (st.save fs fname) fname
      = some (FileData.records (st.tasks.map Task.to_dict)) := by
    simp [ToDoList.save, FS.write]
  cases st with
  | mk l => simp [ToDoList.load, hfs, loadRecords_map_to_dict l hst now2]

/-- Witness for C1 at a concrete task and one-task store. -/
theorem c1_serialize_round_trip_witness :
    Task.from_dict (Task.to_dict (Task.make "a" "n" 2 "b" "t0")) "tX"
      = some (Task.make "a" "n" 2 "b" "t0") ∧
    ToDoList.load ((ToDoList.mk [Task.make "a" "n" 2 "b" "t0"]).save
        (fun _ => none) "f.json") "f.json" "tY"
      = .ok (ToDoList.mk [Task.make "a" "n" 2 "b" "t0"]) :=
  c1_serialize_round_trip (Task.make "a" "n" 2 "b" "t0") (by decide) "tX"
    ⟨[Task.make "a" "n" 2 "b" "t0"]⟩ (by decide) (fun _ => none) "f.json" "tY"

/-- C2: the clamp keeps every integer priority inside the set 1,2,3 with the
listed concrete values; the constructor enforces it; deserialization enforces
it; every task reachable through the public operations satisfies it; and
`edit_task` (whether or not it supplies a priority) preserves it across the
whole store. -/
theorem c2_priority_invariant (p : Int) (title note assignee now : String)
    (st : ToDoList) (hst : ∀ u ∈ st.tasks, u.priorityInv)
    (index : Int) (tl nt : Option String) (pr : Option Int)
    (asg : Option String) :
    (1 ≤ clamp p ∧ clamp p ≤ 3) ∧
    (clamp 1 = 1 ∧ clamp 2 = 2 ∧ clamp 3 = 3 ∧ clamp 0 = 1 ∧ clamp 4 = 3) ∧
    (Task.make title note p assignee now).priorityInv ∧
    (∀ d nw u, Task.from_dict d nw = some u → u.priorityInv) ∧
    (∀ u, ReachableTask u → u.priorityInv) ∧
    (∀ u ∈ (st.edit_task index tl nt pr asg).2.tasks, u.priorityInv) := by
  refine ⟨clamp_bounds p, by decide, make_priorityInv _ _ _ _ _,
    from_dict_priorityInv, reachable_priorityInv, ?_⟩
  intro u hu
  by_cases hidx : 0 ≤ index ∧ index < (st.tasks.length : Int)
  · rw [ToDoList.edit_task, if_pos hidx] at hu
    rcases List.mem_or_eq_of_mem_set hu with hmem | rfl
    · exact hst u hmem
    · have hlt : index.toNat < st.tasks.length := by omega
      refine applyEdit_priorityInv _ _ _ _ _ ?_
      have : st.tasks.getD index.toNat default = st.tasks[index.toNat] := by
        simp [List.getD_eq_getElem?_getD, List.getElem?_eq_getElem hlt]
      rw [this]
      exact hst _ (List.getElem_mem hlt)
  · rw [ToDoList.edit_task, if_neg hidx] at hu
    exact hst u hu

/-- Witness for C2 at concrete priorities, a concrete constructed task and a
concrete edit. -/
theorem c2_priority_invariant_witness :
    (1 ≤ clamp 7 ∧ clamp 7 ≤ 3) ∧
    (clamp 1 = 1 ∧ clamp 2 = 2 ∧ clamp 3 = 3 ∧ clamp 0 = 1 ∧ clamp 4 = 3) ∧
    (Task.make "a" "" 7 "x" "t").priorityInv ∧
    (applyEdit (Task.make "a" "" 9 "x" "t") none none (some 10) none).priorityInv := by
  have h := c2_priority_invariant 7 "a" "" "x" "t"
    ⟨[Task.make "a" "" 9 "x" "t"]⟩ (by decide) 0 none none (some 10) none
  exact ⟨h.1, h.2.1, h.2.2.1, h.2.2.2.2.2 _ (by decide)⟩

/-- C3: deserialization succeeds exactly when the mapping holds the `title`
key; when the optional keys are absent it defaults note to the empty string,
priority to 2 (then clamped), assignee to Unassigned, done to false and
`created_at` to the current time; a missing `title` fails rather than
silently defaulting. -/
theorem c3_deserialize_defaults (d : TaskDict) (now : String) :
    ((Task.from_dict d now).isSome ↔ d.title.isSome) ∧
    (∀ ttl, d = ⟨some ttl, none, none, none, none, none⟩ →
      Task.from_dict d now = some ⟨ttl, "", 2, "Unassigned", false, now⟩) ∧
    (d.title = none → Task.from_dict d now = none) := by
  refine ⟨?_, ?_, ?_⟩
  · cases hd : d.title <;> simp [Task.from_dict, hd]
  · rintro ttl rfl
    simp [Task.from_dict, Task.make]
    decide
  · intro hd
    simp [Task.from_dict, hd]

/-- Witness for C3 at a mapping that has only a title and at one missing it. -/
theorem c3_deserialize_defaults_witness :
    (Task.from_dict ⟨some "x", none, none, none, none, none⟩ "t").isSome ∧
    Task.from_dict ⟨some "x", none, none, none, none, none⟩ "t"
      = some ⟨"x", "", 2, "Unassigned", false, "t"⟩ ∧
    Task.from_dict ⟨none, none, none, none, none, none⟩ "t" = none :=
  ⟨(c3_deserialize_defaults ⟨some "x", none, none, none, none, none⟩ "t").1.mpr
      (by decide),
   (c3_deserialize_defaults ⟨some "x", none, none, none, none, none⟩ "t").2.1
      "x" rfl,
   (c3_deserialize_defaults ⟨none, none, none, none, none, none⟩ "t").2.2 rfl⟩

/-- C4: removal with an index below zero or at least the length (so any index
on an empty store) returns false and leaves the store unchanged; with an
in-range index it returns true and the new sequence is the old one with
exactly that position removed, later elements shifted down by one. -/
theorem c4_remove_task (st : ToDoList) (index : Int) :
    (index < 0 ∨ (st.tasks.length : Int) ≤ index →
      st.remove_task index = (false, st)) ∧
    (0 ≤ index → index < (st.tasks.length : Int) →
      st.remove_task index =
        (true, ⟨st.tasks.take index.toNat ++ st.tasks.drop (index.toNat + 1)⟩)) := by
  constructor
  · intro h
    rw [ToDoList.remove_task, if_neg (by omega)]
  · intro h0 h1
    rw [ToDoList.remove_task, if_pos ⟨h0, h1⟩,
      List.eraseIdx_eq_take_drop_succ]

/-- Witness for C4 at a two-task store: an out-of-range and an in-range
removal. -/
theorem c4_remove_task_witness :
    (ToDoList.mk [Task.make "a" "" 1 "x" "t", Task.make "b" "" 2 "y" "t"]).remove_task 2
      = (false, ⟨[Task.make "a" "" 1 "x" "t", Task.make "b" "" 2 "y" "t"]⟩) ∧
    (ToDoList.mk [Task.make "a" "" 1 "x" "t", Task.make "b" "" 2 "y" "t"]).remove_task 0
      = (true, ⟨[Task.make "b" "" 2 "y" "t"]⟩) :=
  ⟨(c4_remove_task ⟨[Task.make "a" "" 1 "x" "t", Task.make "b" "" 2 "y" "t"]⟩ 2).1
      (by norm_num),
   (c4_remove_task ⟨[Task.make "a" "" 1 "x" "t", Task.make "b" "" 2 "y" "t"]⟩ 0).2
      (by norm_num) (by norm_num)⟩

/-- C5: querying with true returns the full task sequence in store order,
querying with false returns exactly the elements whose done flag is false in
their original relative order, and the latter is an order-preserving
subsequence of the former; both are pure reads of the store. -/
theorem c5_get_tasks (st : ToDoList) :
    st.get_tasks true = st.tasks ∧
    st.get_tasks false = st.tasks.filter (fun t => !t.done) ∧
    List.Sublist (st.get_tasks false) (st.get_tasks true) := by
  refine ⟨rfl, rfl, ?_⟩
  simp [ToDoList.get_tasks, List.filter_sublist st.tasks]

/-- C6: editing at an in-range index succeeds, keeps the length, rewrites
only the task at that index (every other position reads back unchanged), and
on that task each field with a present parameter is overwritten (priority
re-clamped) while each field with an absent parameter, plus done and
`created_at`, is untouched; any out-of-range index fails and changes
nothing. -/
theorem c6_edit_task (st : ToDoList) (index : Int) (title note : Option String)
    (priority : Option Int) (assignee : Option String) :
    (¬(0 ≤ index ∧ index < (st.tasks.length : Int)) →
      st.edit_task index title note priority assignee = (false, st)) ∧
    (0 ≤ index → index < (st.tasks.length : Int) →
      (st.edit_task index title note priority assignee).1 = true ∧
      (st.edit_task index title note priority assignee).2.tasks.length
        = st.tasks.length ∧
      (∀ j : Nat, j ≠ index.toNat →
        (st.edit_task index title note priority assignee).2.tasks[j]?
          = st.tasks[j]?) ∧
      (st.edit_task index title note priority assignee).2.tasks[index.toNat]?
        = some (applyEdit (st.tasks.getD index.toNat default)
            title note priority assignee)) ∧
    (∀ t : Task,
      (applyEdit t title note priority assignee).title = title.getD t.title ∧
      (applyEdit t title note priority assignee).note = note.getD t.note ∧
      (applyEdit t title note priority assignee).priority
        = (match priority with | some p => clamp p | none => t.priority) ∧
      (applyEdit t title note priority assignee).assignee
        = assignee.getD t.assignee ∧
      (applyEdit t title note priority assignee).done = t.done ∧
      (applyEdit t title note priority assignee).created_at = t.created_at) := by
  refine ⟨?_, ?_, ?_⟩
  · intro h
    rw [ToDoList.edit_task, if_neg h]
  · intro h0 h1
    have hlt : index.toNat < st.tasks.length := by omega
    rw [ToDoList.edit_task, if_pos ⟨h0, h1⟩]
    refine ⟨rfl, by simp, ?_, ?_⟩
    · intro j hj
      exact List.getElem?_set_ne (fun he => hj he.symm)
    · simp [List.getElem?_set_self, hlt]
  · intro t
    exact ⟨rfl, rfl, rfl, rfl, rfl, rfl⟩

/-- Witness for C6 at a one-task store: an out-of-range edit, an in-range
edit that sets title and priority, and the frame facts on the edited task. -/
theorem c6_edit_task_witness :
    (ToDoList.mk [Task.make "a" "n" 1 "x" "t"]).edit_task 1
        (some "b") none (some 10) none
      = (false, ⟨[Task.make "a" "n" 1 "x" "t"]⟩) ∧
    ((ToDoList.mk [Task.make "a" "n" 1 "x" "t"]).edit_task 0
        (some "b") none (some 10) none).1 = true ∧
    ((ToDoList.mk [Task.make "a" "n" 1 "x" "t"]).edit_task 0
        (some "b") none (some 10) none).2.tasks[0]?
      = some (applyEdit (Task.make "a" "n" 1 "x" "t")
          (some "b") none (some 10) none) ∧
    (applyEdit (Task.make "a" "n" 1 "x" "t")
        (some "b") none (some 10) none).note = "n" ∧
    (applyEdit (Task.make "a" "n" 1 "x" "t")
        (some "b") none (some 10) none).priority = clamp 10 := by
  have h := c6_edit_task ⟨[Task.make "a" "n" 1 "x" "t"]⟩ 0
    (some "b") none (some 10) none
  have hoor := c6_edit_task ⟨[Task.make "a" "n" 1 "x" "t"]⟩ 1
    (some "b") none (some 10) none
  have hin := h.2.1 (by norm_num) (by norm_num)
  exact ⟨hoor.1 (by norm_num), hin.1, hin.2.2.2,
    (h.2.2 (Task.make "a" "n" 1 "x" "t")).2.1,
    (h.2.2 (Task.make "a" "n" 1 "x" "t")).2.2.1⟩

/-- C7: loading from a path not present in the filesystem raises nothing and
resets the store to the empty sequence, whatever it held before. -/
theorem c7_load_missing_file (st : ToDoList) (fs : FS) (fname now : String)
    (h : fs fname = none) :
    ToDoList.load fs fname now = .ok ⟨[]⟩ ∧
    st.afterLoad fs fname now = ⟨[]⟩ := by
  have h1 : ToDoList.load fs fname now = .ok ⟨[]⟩ := by
    rw [ToDoList.load, h]
  refine ⟨h1, ?_⟩
  rw [ToDoList.afterLoad, h1]

/-- Witness for C7: a nonempty store loading from an empty filesystem. -/
theorem c7_load_missing_file_witness :
    ToDoList.load (fun _ => none) "gone.json" "t" = .ok ⟨[]⟩ ∧
    (ToDoList.mk [Task.make "a" "n" 1 "x" "t0"]).afterLoad
        (fun _ => none) "gone.json" "t" = ⟨[]⟩ :=
  c7_load_missing_file ⟨[Task.make "a" "n" 1 "x" "t0"]⟩
    (fun _ => none) "gone.json" "t" rfl

/-- C8: loading from an existing source that is corrupt, or whose records
include one missing the `title` key, surfaces a failure to the caller, and
the caller's store is left exactly as it was: no partial population with
some-but-not-all records. -/
theorem c8_load_malformed (st : ToDoList) (fs : FS) (fname now : String) :
    (fs fname = some FileData.corrupt →
      ToDoList.load fs fname now = .error LoadError.parseError ∧
      st.afterLoad fs fname now = st) ∧
    (∀ rs, fs fname = some (FileData.records rs) →
      (∃ d ∈ rs, d.title = none) →
      ToDoList.load fs fname now = .error LoadError.malformedRecord ∧
      st.afterLoad fs fname now = st) := by
  constructor
  · intro h
    have h1 : ToDoList.load fs fname now = .error LoadError.parseError := by
      rw [ToDoList.load, h]
    exact ⟨h1, by rw [ToDoList.afterLoad, h1]⟩
  · intro rs h hmiss
    have h1 : ToDoList.load fs fname now = .error LoadError.malformedRecord := by
      simp [ToDoList.load, h, loadRecords_none_of_missing_title rs now hmiss]
    exact ⟨h1, by rw [ToDoList.afterLoad, h1]⟩

/-- Witness for C8: a corrupt file and a file whose single record lacks the
title key, loaded into a nonempty store. -/
theorem c8_load_malformed_witness :
    ToDoList.load (fun n => if n = "c.json" then some FileData.corrupt else none)
        "c.json" "t" = .error LoadError.parseError ∧
    (ToDoList.mk [Task.make "a" "n" 1 "x" "t0"]).afterLoad
        (fun n => if n = "c.json" then some FileData.corrupt else none)
        "c.json" "t" = ⟨[Task.make "a" "n" 1 "x" "t0"]⟩ ∧
    ToDoList.load
        (fun n => if n = "m.json" then
          some (FileData.records [⟨none, none, none, none, none, none⟩]) else none)
        "m.json" "t" = .error LoadError.malformedRecord ∧
    (ToDoList.mk [Task.make "a" "n" 1 "x" "t0"]).afterLoad
        (fun n => if n = "m.json" then
          some (FileData.records [⟨none, none, none, none, none, none⟩]) else none)
        "m.json" "t" = ⟨[Task.make "a" "n" 1 "x" "t0"]⟩ := by
  have hc := (c8_load_malformed ⟨[Task.make "a" "n" 1 "x" "t0"]⟩
    (fun n => if n = "c.json" then some FileData.corrupt else none)
    "c.json" "t").1 (by simp)
  have hm := (c8_load_malformed ⟨[Task.make "a" "n" 1 "x" "t0"]⟩
    (fun n => if n = "m.json" then
      some (FileData.records [⟨none, none, none, none, none, none⟩]) else none)
    "m.json" "t").2 [⟨none, none, none, none, none, none⟩] (by simp) (by simp)
  exact ⟨hc.1, hc.2, hm.1, hm.2⟩

/-- C9: adding a task titled Buy milk with priority 5 to a fresh store clamps
the stored priority to 3, and after a save to a destination followed by a
load of that destination, the single resulting task displays as
`[ ] Buy milk (Priority: Low, Assignee: Unassigned)`. -/
theorem c9_end_to_end :
    (ToDoList.empty.add_task
        (Task.make "Buy milk" "" 5 "Unassigned" "t0")).tasks.map Task.priority
      = [3] ∧
    ((ToDoList.load
        ((ToDoList.empty.add_task
            (Task.make "Buy milk" "" 5 "Unassigned" "t0")).save
          (fun _ => none) "x.json")
        "x.json" "t1").toOption.map fun s => s.tasks.map Task.display)
      = some [some "[ ] Buy milk (Priority: Low, Assignee: Unassigned)"] := by
  decide

/-- C10: a task reachable through the public operations (construction, the
done and undone toggles, field edits, deserialization) always has its
priority in the label dictionary, so display never fails its lookup. -/
theorem c10_display_total (t : Task) (h : ReachableTask t) :
    (t.display).isSome = true :=
  display_isSome_of_inv t (reachable_priorityInv t h)

/-- Witness for C10 at a freshly constructed task with an out-of-range
priority input. -/
theorem c10_display_total_witness :
    ((Task.make "x" "" 5 "y" "t").display).isSome = true :=
  c10_display_total (Task.make "x" "" 5 "y" "t")
    (ReachableTask.construct "x" "" 5 "y" "t")

end Todo
